import Mathlib

/-!
Verification of the e-commerce sales dashboard (src/main.py): a shallow
embedding of the dataset generator `generate_dummy_data` and of the filter
and aggregation pipeline in `main`, with theorems settling the spec claims.

Modelling conventions:
* A pandas row becomes a `Record`; the DataFrame becomes a `List Record`
  in generation order.
* Calendar dates become `Int` epoch-day numbers; `datetime.today()` is the
  explicit parameter `today`.
* Python floats become `ℚ`; `round(x, 2)` becomes `roundTo2`.
* The numpy global RNG is modelled by an explicit state `GenState`
  (the seed last installed by `np.random.seed` plus a draw counter) and an
  `Oracle` giving the value of each draw as a function of `(seed, counter)`.
  Each distribution's draw is derived from the oracle value so that it lands
  in the distribution's support: `np.random.choice(l)` picks index
  `value % l.length`, `np.random.poisson` returns the oracle's natural
  number, and `np.random.uniform a b` returns `a + (b - a) * Int.fract v`,
  which lies in `[a, b)`. Theorems quantify over all oracles, hence over
  every possible sequence of random outcomes.
-/

/-- One transaction row of the generated DataFrame, with the columns
`Date, Product, Category, Units Sold, Revenue, Region` of src/main.py. -/
structure Record where
  date : ℤ
  product : String
  category : String
  units : ℕ
  revenue : ℚ
  region : String
deriving DecidableEq

/-- The fixed 10-item product catalog (`products` in `generate_dummy_data`). -/
def products : List String :=
  ["Classic Tee", "Sport Sneakers", "Wireless Headset", "Smartwatch", "Backpack",
   "Running Shorts", "Sunglasses", "Water Bottle", "Phone Case", "Bluetooth Speaker"]

/-- The fixed category → product-list table (`categories` in the source). -/
def categoriesTable : List (String × List String) :=
  [("Apparel", ["Classic Tee", "Running Shorts"]),
   ("Footwear", ["Sport Sneakers"]),
   ("Electronics", ["Wireless Headset", "Smartwatch", "Bluetooth Speaker"]),
   ("Accessories", ["Backpack", "Sunglasses", "Water Bottle", "Phone Case"])]

/-- The four category names, the keys of `categoriesTable`. -/
def categoryNames : List String := categoriesTable.map Prod.fst

/-- The category lookup `[k for k, v in categories.items() if product in v][0]`:
first table entry whose product list contains `p` (empty string models the
IndexError case that cannot arise for catalog products). -/
def categoryOf (p : String) : String :=
  match categoriesTable.find? (fun kv => kv.2.contains p) with
  | some kv => kv.1
  | none => ""

/-- The fixed region list (`regions` in the source). -/
def regions : List String := ["North", "South", "East", "West"]

/-- The fixed product → unit-price dictionary used in the revenue line. -/
def priceTable : List (String × ℕ) :=
  [("Classic Tee", 15), ("Sport Sneakers", 75), ("Wireless Headset", 45),
   ("Smartwatch", 95), ("Backpack", 40), ("Running Shorts", 20),
   ("Sunglasses", 25), ("Water Bottle", 10), ("Phone Case", 12),
   ("Bluetooth Speaker", 55)]

/-- Dictionary lookup `price[product]` (0 models the KeyError case that
cannot arise for catalog products). -/
def priceOf (p : String) : ℕ :=
  match priceTable.find? (fun kv => kv.1 == p) with
  | some kv => kv.2
  | none => 0

/-- Python `round(x, 2)`: round to 2 fractional digits. -/
def roundTo2 (x : ℚ) : ℚ := (round (100 * x) : ℤ) / 100

/-- The trend expression of src/main.py line 60,
`1 + ((date - dates[0]).days / (len(dates) * 30)) * 0.2`, as a function of
the window length in months and the day offset `d` (so the denominator is
`months * 30 * 30`). -/
def trendFactor (months d : ℕ) : ℚ :=
  1 + ((d : ℚ) / (((months * 30 : ℕ) : ℚ) * 30)) * (1 / 5)

/-- Modelled from the spec: the trend factor the claim describes, increasing
linearly from 1.0 on the first day (offset 0) to 1.2 on the last day (offset
`months * 30 - 1`) of the generation window. -/
def claimedTrend (months d : ℕ) : ℚ :=
  1 + (1 / 5) * (d : ℚ) / (((months * 30 - 1 : ℕ) : ℚ))

/-- The numpy global RNG state: the seed installed by `np.random.seed`
together with the number of draws made since. -/
structure GenState where
  seed : ℕ
  pos : ℕ
deriving DecidableEq

/-- An oracle fixing the outcome of every random draw as a function of the
seeded stream position: `nat` backs integer-valued draws (Poisson counts and
choice indices), `rat` backs `np.random.uniform`. -/
structure Oracle where
  nat : ℕ → ℕ → ℕ
  rat : ℕ → ℕ → ℚ

/-- Make one integer-valued draw and advance the stream. -/
def drawNat (o : Oracle) (s : GenState) : ℕ × GenState :=
  (o.nat s.seed s.pos, ⟨s.seed, s.pos + 1⟩)

/-- Make one `uniform`-backing draw and advance the stream. -/
def drawRat (o : Oracle) (s : GenState) : ℚ × GenState :=
  (o.rat s.seed s.pos, ⟨s.seed, s.pos + 1⟩)

/-- Model of `np.random.choice(l)` (and the weighted variant, whose support is the
same list): pick the element at the drawn index reduced mod the length. -/
def pickFrom (l : List String) (i : ℕ) : String := l.getD (i % l.length) ""

/-- The per-transaction body of the generator's inner loop: draw a product,
look up its category and price, draw units (Poisson floored at 1), draw the
uniform multiplier in `[0.8, 1.2)`, compute
`revenue = round(units * price * multiplier * trend, 2)`, draw a region.
`d` is the day offset into the window; `n` transactions are generated. -/
def genTransactions (o : Oracle) (months d : ℕ) (today : ℤ) :
    ℕ → GenState → List Record × GenState
  | 0, s => ([], s)
  | n + 1, s =>
    let pd := drawNat o s
    let product := pickFrom products pd.1
    let category := categoryOf product
    let ud := drawNat o pd.2
    let units := max 1 ud.1
    let price := priceOf product
    let md := drawRat o ud.2
    let mult : ℚ := 4 / 5 + (2 / 5) * Int.fract md.1
    let revenue := roundTo2 ((units : ℚ) * (price : ℚ) * mult * trendFactor months d)
    let rd := drawNat o md.2
    let region := pickFrom regions rd.1
    let rest := genTransactions o months d today n rd.2
    (⟨today - 30 * (months : ℤ) + (d : ℤ), product, category, units, revenue, region⟩
       :: rest.1, rest.2)

/-- The per-day outer loop: for each of the remaining `n` days starting at
offset `d`, draw the day's transaction count (Poisson, λ=8) and generate
that many transactions. -/
def genDays (o : Oracle) (months : ℕ) (today : ℤ) :
    ℕ → ℕ → GenState → List Record × GenState
  | _, 0, s => ([], s)
  | d, n + 1, s =>
    let cd := drawNat o s
    let day := genTransactions o months d today cd.1 cd.2
    let rest := genDays o months today (d + 1) n day.2
    (day.1 ++ rest.1, rest.2)

/-- The function `generate_dummy_data(months, seed)` of src/main.py: seeds the global RNG
(discarding its prior state `g`), builds the `months * 30`-day date axis
ending at `today`, and generates all rows in order. -/
def generate_dummy_data (o : Oracle) (today : ℤ) (months seed : ℕ)
    (g : GenState) : List Record :=
  (genDays o months today 0 (months * 30) { g with seed := seed, pos := 0 }).1

/-- The row mask of src/main.py lines 89-93: date within the inclusive range
and, unless the filter is "All", exact category and region match. -/
def recPred (startD endD : ℤ) (cat reg : String) (r : Record) : Bool :=
  (decide (startD ≤ r.date) && decide (r.date ≤ endD))
    && (cat == "All" || r.category == cat)
    && (reg == "All" || r.region == reg)

/-- The selection `df_filtered = df.loc[mask]`: the order-preserving selection of rows
satisfying the mask. -/
def applyFilters (df : List Record) (startD endD : ℤ) (cat reg : String) :
    List Record :=
  df.filter (recPred startD endD cat reg)

/-- The KPI `df_filtered["Revenue"].sum()`. -/
def totalRevenue (f : List Record) : ℚ := (f.map Record.revenue).sum

/-- The KPI `df_filtered["Units Sold"].sum()`. -/
def totalUnits (f : List Record) : ℕ := (f.map Record.units).sum

/-- The KPI `total_revenue / (len(df_filtered) if len(df_filtered) else 1)`. -/
def avgRevenuePerRow (f : List Record) : ℚ :=
  totalRevenue f / (if f.length = 0 then 1 else (f.length : ℚ))

/-- Sum of `Revenue` over the rows satisfying `p`. -/
def sumRevenueWhere (f : List Record) (p : Record → Bool) : ℚ :=
  ((f.filter p).map Record.revenue).sum

/-- The bound `df["Date"].min()` on the nonempty generated dataset (0 on the empty
list, where pandas returns NaT). -/
def minDate (df : List Record) : ℤ :=
  match df with
  | [] => 0
  | r :: rs => rs.foldl (fun m x => min m x.date) r.date

/-- The bound `df["Date"].max()` on the nonempty generated dataset (0 on the empty
list, where pandas returns NaT). -/
def maxDate (df : List Record) : ℤ :=
  match df with
  | [] => 0
  | r :: rs => rs.foldl (fun m x => max m x.date) r.date

/-- The weekly bucket of a date under `pd.Grouper(freq="W")`: consecutive
7-day windows, here indexed by the floor of the epoch day over 7. -/
def weekOf (d : ℤ) : ℤ := Int.fdiv d 7

/-- The series `df_filtered.groupby(pd.Grouper(key="Date", freq="W"))["Revenue"].sum()`:
one `(week, revenue sum)` entry per occupied week, chronologically ordered. -/
def weeklySeries (f : List Record) : List (ℤ × ℚ) :=
  (List.insertionSort (· ≤ ·) (f.map (fun r => weekOf r.date)).dedup).map
    (fun w => (w, sumRevenueWhere f (fun r => weekOf r.date == w)))

/-- The grouping `df_filtered.groupby("Product")["Revenue"].sum()`: one
`(product, revenue sum)` entry per distinct product, keys in the groupby's
sorted key order. -/
def productSums (f : List Record) : List (String × ℚ) :=
  (List.insertionSort (· ≤ ·) (f.map Record.product).dedup).map
    (fun p => (p, sumRevenueWhere f (fun r => r.product == p)))

/-- Descending-revenue comparison used by
`sort_values("Revenue", ascending=False)`. -/
def revGe (a b : String × ℚ) : Prop := b.2 ≤ a.2

instance : DecidableRel revGe := fun a b => inferInstanceAs (Decidable (b.2 ≤ a.2))

instance : IsTotal (String × ℚ) revGe := ⟨fun a b => le_total b.2 a.2⟩

instance : IsTrans (String × ℚ) revGe := ⟨fun _ _ _ h1 h2 => le_trans h2 h1⟩

/-- The value `top_products` of src/main.py line 120: group by product, sum revenue,
sort descending by the sum, keep the first 10. -/
def top_products (f : List Record) : List (String × ℚ) :=
  (List.insertionSort revGe (productSums f)).take 10

/-- The grouping `df_filtered.groupby("Region")["Revenue"].sum()`. -/
def regionSummary (f : List Record) : List (String × ℚ) :=
  (List.insertionSort (· ≤ ·) (f.map Record.region).dedup).map
    (fun g => (g, sumRevenueWhere f (fun r => r.region == g)))

/-- The CSV header row `to_csv` emits for the six-column frame. -/
def csvHeader : String := "Date,Product,Category,Units Sold,Revenue,Region"

/-- One CSV data row: the six fields of a record, comma-separated, in column
order. -/
def recordToCsvLine (r : Record) : String :=
  toString r.date ++ "," ++ r.product ++ "," ++ r.category ++ ","
    ++ toString r.units ++ "," ++ toString r.revenue ++ "," ++ r.region

/-- The lines of `df_filtered.to_csv(index=False)`: the header followed by
one data row per filtered record, in order. -/
def csvLines (rows : List Record) : List String :=
  csvHeader :: rows.map recordToCsvLine

/-- The downloadable artifact: its text content and its file name. -/
structure Download where
  data : String
  fileName : String
deriving DecidableEq

/-- The `st.download_button` payload of src/main.py lines 132-133. -/
def csvDownload (rows : List Record) : Download :=
  ⟨String.intercalate "\n" (csvLines rows), "filtered_sales.csv"⟩

/-- Everything `main` renders only when some rows matched: the three charts,
the table, and the CSV download. -/
structure ChartData where
  salesTime : List (ℤ × ℚ)
  topProducts : List (String × ℚ)
  regionData : List (String × ℚ)
  tableRows : List Record
  csv : Download
deriving DecidableEq

/-- The outcome of one `main` pass after the KPI metrics: either the
empty-result warning (charts skipped) or the rendered charts. -/
structure DashboardView where
  totalRevenueKpi : ℚ
  totalUnitsKpi : ℕ
  avgRevenueKpi : ℚ
  warned : Bool
  charts : Option ChartData
deriving DecidableEq

/-- The filter-and-render pipeline of `main` (src/main.py lines 88-133):
filter, compute the KPIs, and either warn and return when the weekly series
is empty, or produce every chart, the table, and the CSV download. -/
def mainPipeline (df : List Record) (startD endD : ℤ) (cat reg : String) :
    DashboardView :=
  let f := applyFilters df startD endD cat reg
  let salesTime := weeklySeries f
  if salesTime.isEmpty then
    ⟨totalRevenue f, totalUnits f, avgRevenuePerRow f, true, none⟩
  else
    ⟨totalRevenue f, totalUnits f, avgRevenuePerRow f, false,
     some ⟨salesTime, top_products f, regionSummary f, f, csvDownload f⟩⟩

/-- A concrete oracle for evaluating the generator on a one-month window:
every day's transaction count is 0 except day 29 (stream position 29),
which gets one transaction; that transaction draws product index 0
("Classic Tee"), a units value of 1, a uniform value with fractional part
1/2 (so the multiplier is exactly 1), and region index 0 ("North"). -/
def cexOracle : Oracle :=
  { nat := fun _ pos => if pos = 29 then 1 else if pos = 31 then 1 else 0,
    rat := fun _ _ => 1 / 2 }

/-- The single record `generate_dummy_data` produces under `cexOracle` with
`months = 1`, `seed = 42` and `today = 0`: day offset 29 (the last day of
the window), so its date is `0 - 30 + 29 = -1`, and its revenue is
`round(1 * 15 * 1 * (1 + (29 / 900) * 0.2), 2) = 15.1`. -/
def sampleRec : Record := ⟨-1, "Classic Tee", "Apparel", 1, 151 / 10, "North"⟩

/-!
Helper lemmas. Rational arithmetic does not reduce in the kernel, so
concrete floor and round values are established through `Int.floor_eq_iff`.
-/

/-- Evaluate an integer floor from explicit bounds. -/
lemma floor_eval (q : ℚ) (z : ℤ) (h1 : (z : ℚ) ≤ q) (h2 : q < (z : ℚ) + 1) : ⌊q⌋ = z :=
  Int.floor_eq_iff.mpr ⟨h1, h2⟩

/-- Evaluate a rounding from explicit bounds on `q + 1/2`. -/
lemma round_eval (q : ℚ) (z : ℤ) (h1 : (z : ℚ) ≤ q + 1 / 2) (h2 : q + 1 / 2 < (z : ℚ) + 1) :
    round q = z := by
  rw [round_eq]; exact floor_eval _ _ h1 h2

/-- The fractional part of 1/2 is 1/2 (the multiplier backing value used by
`cexOracle`). -/
lemma fract_half : Int.fract ((2 : ℚ)⁻¹) = 2⁻¹ := by
  rw [Int.fract, floor_eval ((2 : ℚ)⁻¹) 0 (by norm_num) (by norm_num)]
  norm_num

/-- The trend factor is nonnegative (it is 1 plus a nonnegative multiple of
a nonnegative quotient). -/
lemma trendFactor_nonneg (months d : ℕ) : 0 ≤ trendFactor months d := by
  rw [trendFactor]
  have h : (0 : ℚ) ≤ ((d : ℚ) / (((months * 30 : ℕ) : ℚ) * 30)) :=
    div_nonneg (Nat.cast_nonneg d) (by positivity)
  nlinarith

/-- Rounding to two decimals preserves nonnegativity. -/
lemma roundTo2_nonneg (x : ℚ) (hx : 0 ≤ x) : 0 ≤ roundTo2 x := by
  rw [roundTo2]
  have h : (0 : ℤ) ≤ round (100 * x) := by
    rw [round_eq]
    rw [Int.le_floor]
    push_cast
    linarith
  have h2 : (0 : ℚ) ≤ ((round (100 * x) : ℤ) : ℚ) := by exact_mod_cast h
  positivity

/-- A `choice` pick from a nonempty list is a member of that list. -/
lemma pickFrom_mem (l : List String) (i : ℕ) (h : l ≠ []) : pickFrom l i ∈ l := by
  have hlen : 0 < l.length := List.length_pos.mpr h
  have hlt : i % l.length < l.length := Nat.mod_lt _ hlen
  rw [pickFrom, List.getD_eq_getElem?_getD, List.getElem?_eq_getElem hlt]
  exact List.getElem_mem hlt

/-- Every catalog product's looked-up category is one of the four fixed
category names. -/
lemma categoryOf_mem_categoryNames : ∀ p ∈ products, categoryOf p ∈ categoryNames := by
  decide

/-- The invariant carried by every record `genTransactions` emits on day
offset `d`: correct date, units floored at 1, a catalog product, the
category looked up from the product, and a revenue computed by the source's
formula from some multiplier in `[0.8, 1.2)`. -/
lemma genTransactions_mem (o : Oracle) (months d : ℕ) (today : ℤ) :
    ∀ n s r, r ∈ (genTransactions o months d today n s).1 →
      r.date = today - 30 * (months : ℤ) + (d : ℤ)
      ∧ 1 ≤ r.units
      ∧ r.product ∈ products
      ∧ r.category = categoryOf r.product
      ∧ ∃ m : ℚ, 4 / 5 ≤ m ∧ m < 6 / 5
          ∧ r.revenue
              = roundTo2 ((r.units : ℚ) * (priceOf r.product : ℚ) * m * trendFactor months d) := by
  intro n
  induction n with
  | zero =>
    intro s r hr
    simp [genTransactions] at hr
  | succ k ih =>
    intro s r hr
    simp only [genTransactions] at hr
    rcases List.mem_cons.mp hr with h | h
    · subst h
      refine ⟨rfl, le_max_left _ _, pickFrom_mem _ _ (by decide), rfl,
        4 / 5 + (2 / 5) * Int.fract (o.rat s.seed (s.pos + 1 + 1)), ?_, ?_, rfl⟩
      · have := Int.fract_nonneg (o.rat s.seed (s.pos + 1 + 1))
        linarith
      · have := Int.fract_lt_one (o.rat s.seed (s.pos + 1 + 1))
        linarith
    · exact ih _ _ h

/-- Every record `genDays` emits while `n` days remain from offset `d0`
satisfies the transaction invariant for some day offset in `[d0, d0 + n)`. -/
lemma genDays_mem (o : Oracle) (months : ℕ) (today : ℤ) :
    ∀ n d0 s r, r ∈ (genDays o months today d0 n s).1 →
      ∃ d, d0 ≤ d ∧ d < d0 + n
        ∧ r.date = today - 30 * (months : ℤ) + (d : ℤ)
        ∧ 1 ≤ r.units
        ∧ r.product ∈ products
        ∧ r.category = categoryOf r.product
        ∧ ∃ m : ℚ, 4 / 5 ≤ m ∧ m < 6 / 5
            ∧ r.revenue
                = roundTo2 ((r.units : ℚ) * (priceOf r.product : ℚ) * m * trendFactor months d) := by
  intro n
  induction n with
  | zero =>
    intro d0 s r hr
    simp [genDays] at hr
  | succ k ih =>
    intro d0 s r hr
    simp only [genDays] at hr
    rcases List.mem_append.mp hr with h | h
    · obtain ⟨h1, h2, h3, h4, h5⟩ := genTransactions_mem o months d0 today _ _ r h
      exact ⟨d0, le_refl d0, by omega, h1, h2, h3, h4, h5⟩
    · obtain ⟨d, hd1, hd2, hrest⟩ := ih (d0 + 1) _ r h
      exact ⟨d, by omega, by omega, hrest⟩

/-- Every record of the generated dataset satisfies the transaction
invariant for some day offset within the window. -/
lemma generate_mem (o : Oracle) (today : ℤ) (months seed : ℕ) (g : GenState)
    (r : Record) (hr : r ∈ generate_dummy_data o today months seed g) :
    ∃ d, d < months * 30
      ∧ r.date = today - 30 * (months : ℤ) + (d : ℤ)
      ∧ 1 ≤ r.units
      ∧ r.product ∈ products
      ∧ r.category = categoryOf r.product
      ∧ ∃ m : ℚ, 4 / 5 ≤ m ∧ m < 6 / 5
          ∧ r.revenue
              = roundTo2 ((r.units : ℚ) * (priceOf r.product : ℚ) * m * trendFactor months d) := by
  obtain ⟨d, _, hd2, hrest⟩ := genDays_mem o months today (months * 30) 0 _ r hr
  exact ⟨d, by omega, hrest⟩

/-- Concrete evaluation: under `cexOracle` with a one-month window the
generated dataset is exactly `[sampleRec]`. -/
lemma concreteDataset : generate_dummy_data cexOracle 0 1 42 ⟨0, 0⟩ = [sampleRec] := by
  simp [generate_dummy_data, genDays, genTransactions, drawNat, drawRat, cexOracle, pickFrom,
        products, regions, categoryOf, categoriesTable, priceOf, priceTable, sampleRec, fract_half]
  rw [roundTo2, trendFactor]
  norm_num
  rw [round_eval (4529 / 3) 1510 (by norm_num) (by norm_num)]
  norm_num

/-- An insertion sort is empty exactly when its input is. -/
lemma insertionSort_eq_nil_iff {α : Type} (r : α → α → Prop) [DecidableRel r] (l : List α) :
    List.insertionSort r l = [] ↔ l = [] := by
  constructor
  · intro h
    have hp := List.perm_insertionSort r l
    rw [h] at hp
    exact (List.Perm.nil_eq hp).symm
  · intro h
    subst h
    rfl

/-- The weekly revenue series is empty exactly when the filtered set is. -/
lemma weeklySeries_eq_nil_iff (f : List Record) : weeklySeries f = [] ↔ f = [] := by
  rw [weeklySeries, List.map_eq_nil_iff, insertionSort_eq_nil_iff, List.dedup_eq_nil,
    List.map_eq_nil_iff]

/-- A fold of `min` over record dates is below its seed and below every
folded date. -/
lemma foldl_min_le (l : List Record) (a : ℤ) :
    (l.foldl (fun m x => min m x.date) a) ≤ a
    ∧ ∀ x ∈ l, (l.foldl (fun m x => min m x.date) a) ≤ x.date := by
  induction l generalizing a with
  | nil => exact ⟨le_refl a, by simp⟩
  | cons b t ih =>
    simp only [List.foldl_cons]
    obtain ⟨h1, h2⟩ := ih (min a b.date)
    refine ⟨h1.trans (min_le_left _ _), ?_⟩
    intro x hx
    rcases List.mem_cons.mp hx with h | h
    · subst h
      exact h1.trans (min_le_right _ _)
    · exact h2 x h

/-- A fold of `max` over record dates is above its seed and above every
folded date. -/
lemma le_foldl_max (l : List Record) (a : ℤ) :
    a ≤ (l.foldl (fun m x => max m x.date) a)
    ∧ ∀ x ∈ l, x.date ≤ (l.foldl (fun m x => max m x.date) a) := by
  induction l generalizing a with
  | nil => exact ⟨le_refl a, by simp⟩
  | cons b t ih =>
    simp only [List.foldl_cons]
    obtain ⟨h1, h2⟩ := ih (max a b.date)
    refine ⟨(le_max_left _ _).trans h1, ?_⟩
    intro x hx
    rcases List.mem_cons.mp hx with h | h
    · subst h
      exact (le_max_right _ _).trans h1
    · exact h2 x h

/-- The minimum `df["Date"].min()` bounds every date of the dataset from below. -/
lemma minDate_le (df : List Record) (r : Record) (hr : r ∈ df) : minDate df ≤ r.date := by
  cases df with
  | nil => cases hr
  | cons b t =>
    rw [minDate]
    rcases List.mem_cons.mp hr with h | h
    · subst h
      exact (foldl_min_le t r.date).1
    · exact (foldl_min_le t b.date).2 r h

/-- The maximum `df["Date"].max()` bounds every date of the dataset from above. -/
lemma le_maxDate (df : List Record) (r : Record) (hr : r ∈ df) : r.date ≤ maxDate df := by
  cases df with
  | nil => cases hr
  | cons b t =>
    rw [maxDate]
    rcases List.mem_cons.mp hr with h | h
    · subst h
      exact (le_foldl_max t r.date).1
    · exact (le_foldl_max t b.date).2 r h

/-- C2: for every fixed pair (months, seed), two calls to the generator
produce identical datasets — same row count and same field values in the
same order — because all randomness is drawn from the single generator
stream installed by `np.random.seed(seed)`, so the result does not depend
on the RNG state the calls start from. -/
theorem C2_generator_deterministic (o : Oracle) (today : ℤ) (months seed : ℕ)
    (g1 g2 : GenState) :
    generate_dummy_data o today months seed g1 = generate_dummy_data o today months seed g2
    ∧ (generate_dummy_data o today months seed g1).length
        = (generate_dummy_data o today months seed g2).length :=
  ⟨rfl, rfl⟩

/-- C3: a record is in the filtered set exactly when it is a dataset record
whose date lies in the inclusive range and which passes the category and
region filters ("All" means no restriction, otherwise exact match). -/
theorem C3_filter_membership (df : List Record) (startD endD : ℤ)
    (cat reg : String) (r : Record) :
    r ∈ applyFilters df startD endD cat reg
      ↔ r ∈ df ∧ (startD ≤ r.date ∧ r.date ≤ endD)
          ∧ (cat = "All" ∨ r.category = cat) ∧ (reg = "All" ∨ r.region = reg) := by
  rw [applyFilters, List.mem_filter, recPred]
  simp only [Bool.and_eq_true, Bool.or_eq_true, decide_eq_true_eq, beq_iff_eq]
  tauto

/-- C4: `avg_revenue_per_row` is the total revenue divided by the filtered
row count, with divisor 1 when the filtered set is empty, so the empty case
yields 0 and the nonempty case is the true quotient. -/
theorem C4_avg_revenue_guard (df : List Record) (startD endD : ℤ) (cat reg : String) :
    avgRevenuePerRow (applyFilters df startD endD cat reg)
        = totalRevenue (applyFilters df startD endD cat reg)
          / (if (applyFilters df startD endD cat reg).length = 0 then 1
             else ((applyFilters df startD endD cat reg).length : ℚ))
    ∧ (applyFilters df startD endD cat reg = []
        → avgRevenuePerRow (applyFilters df startD endD cat reg) = 0)
    ∧ (applyFilters df startD endD cat reg ≠ []
        → avgRevenuePerRow (applyFilters df startD endD cat reg)
            = totalRevenue (applyFilters df startD endD cat reg)
              / ((applyFilters df startD endD cat reg).length : ℚ)) := by
  refine ⟨rfl, ?_, ?_⟩
  · intro h
    rw [h]
    simp [avgRevenuePerRow, totalRevenue]
  · intro h
    rw [avgRevenuePerRow, if_neg (by simpa [List.length_eq_zero] using h)]

/-- Witness for C4 at the concrete empty filtered set. -/
theorem C4_avg_revenue_witness : avgRevenuePerRow (applyFilters [] 0 0 "All" "All") = 0 :=
  (C4_avg_revenue_guard [] 0 0 "All" "All").2.1 rfl

/-- C7: filtering with the dataset's own full date range and both selectors
at "All" returns the dataset unchanged, rows and order included. -/
theorem C7_identity_filter (df : List Record) :
    applyFilters df (minDate df) (maxDate df) "All" "All" = df := by
  rw [applyFilters, List.filter_eq_self]
  intro r hr
  rw [recPred]
  simp [minDate_le df r hr, le_maxDate df r hr]

/-- C9: the CSV export starts with the header row naming the six fields in
order, has exactly one data row per filtered record in order, and is
offered under the name `filtered_sales.csv`. -/
theorem C9_csv_export (rows : List Record) :
    (csvLines rows).head? = some csvHeader
    ∧ csvHeader = "Date,Product,Category,Units Sold,Revenue,Region"
    ∧ (csvLines rows).length = rows.length + 1
    ∧ (∀ i : ℕ, (csvLines rows)[i + 1]? = (rows[i]?).map recordToCsvLine)
    ∧ (csvDownload rows).data = String.intercalate "\n" (csvLines rows)
    ∧ (csvDownload rows).fileName = "filtered_sales.csv" := by
  refine ⟨rfl, rfl, by simp [csvLines], ?_, rfl, rfl⟩
  intro i
  simp [csvLines]

/-- C10: the filtered set is an order-preserving subsequence of the
dataset, and each record occurs in it exactly as often as in the dataset
when it passes the mask and never otherwise. -/
theorem C10_filter_subsequence (df : List Record) (startD endD : ℤ) (cat reg : String) :
    (applyFilters df startD endD cat reg).Sublist df
    ∧ ∀ r : Record, (applyFilters df startD endD cat reg).count r
        = if recPred startD endD cat reg r = true then df.count r else 0 := by
  refine ⟨List.filter_sublist _, ?_⟩
  intro r
  by_cases h : recPred startD endD cat reg r = true
  · rw [if_pos h, applyFilters, List.count_filter h]
  · rw [if_neg h, applyFilters, List.count_eq_zero]
    intro hmem
    exact h (List.mem_filter.mp hmem).2

/-- C8: every generated record is well-formed — units at least 1, revenue
nonnegative, product from the fixed 10-item catalog, and category equal to
the catalog's mapping for the product, hence one of the 4 fixed names. -/
theorem C8_record_wellformed (o : Oracle) (today : ℤ) (months seed : ℕ)
    (g : GenState) (r : Record) (hr : r ∈ generate_dummy_data o today months seed g) :
    1 ≤ r.units ∧ 0 ≤ r.revenue ∧ r.product ∈ products
      ∧ r.category = categoryOf r.product ∧ r.category ∈ categoryNames := by
  obtain ⟨d, _, _, hu, hp, hc, m, hm1, hm2, hrev⟩ := generate_mem o today months seed g r hr
  refine ⟨hu, ?_, hp, hc, hc ▸ categoryOf_mem_categoryNames r.product hp⟩
  rw [hrev]
  apply roundTo2_nonneg
  have h1 : (0 : ℚ) ≤ (r.units : ℚ) := Nat.cast_nonneg _
  have h2 : (0 : ℚ) ≤ (priceOf r.product : ℚ) := Nat.cast_nonneg _
  have h3 : (0 : ℚ) ≤ m := le_trans (by norm_num) hm1
  have h4 := trendFactor_nonneg months d
  exact mul_nonneg (mul_nonneg (mul_nonneg h1 h2) h3) h4

/-- Witness for C8 at the concrete record generated under `cexOracle`. -/
theorem C8_record_wellformed_witness :
    1 ≤ sampleRec.units ∧ 0 ≤ sampleRec.revenue ∧ sampleRec.product ∈ products
      ∧ sampleRec.category = categoryOf sampleRec.product
      ∧ sampleRec.category ∈ categoryNames :=
  C8_record_wellformed cexOracle 0 1 42 ⟨0, 0⟩ sampleRec
    (by rw [concreteDataset]; exact List.mem_singleton_self _)

/-- C1 (amended): every generated record's revenue is
`round(units * price * multiplier * trend, 2)` for its day's offset `d`,
where the multiplier is a uniform draw in `[0.8, 1.2)` and the trend is the
source's `1 + (d / (len(dates) * 30)) * 0.2`, not a factor reaching 1.2 at
the end of the window. -/
theorem C1_revenue_formula_amended (o : Oracle) (today : ℤ) (months seed : ℕ)
    (g : GenState) (r : Record) (hr : r ∈ generate_dummy_data o today months seed g) :
    ∃ m : ℚ, ∃ d : ℕ, 4 / 5 ≤ m ∧ m < 6 / 5 ∧ d < months * 30
      ∧ r.date = today - 30 * (months : ℤ) + (d : ℤ)
      ∧ r.revenue
          = roundTo2 ((r.units : ℚ) * (priceOf r.product : ℚ) * m * trendFactor months d) := by
  obtain ⟨d, hd, hdate, _, _, _, m, hm1, hm2, hrev⟩ := generate_mem o today months seed g r hr
  exact ⟨m, d, hm1, hm2, hd, hdate, hrev⟩

/-- Witness for the amended C1 at the concrete record generated under
`cexOracle`. -/
theorem C1_revenue_formula_witness :
    ∃ m : ℚ, ∃ d : ℕ, 4 / 5 ≤ m ∧ m < 6 / 5 ∧ d < 1 * 30
      ∧ sampleRec.date = 0 - 30 * ((1 : ℕ) : ℤ) + (d : ℤ)
      ∧ sampleRec.revenue
          = roundTo2 ((sampleRec.units : ℚ) * (priceOf sampleRec.product : ℚ) * m
              * trendFactor 1 d) :=
  C1_revenue_formula_amended cexOracle 0 1 42 ⟨0, 0⟩ sampleRec
    (by rw [concreteDataset]; exact List.mem_singleton_self _)

/-- C1 (counterexample): under `cexOracle` the dataset is the single
last-day record `sampleRec`; its uniform multiplier draw is exactly 1, yet
its revenue 15.1 differs from
`round(units * price * 1 * trend, 2) = 18` computed with the claimed trend
factor, which reaches 1.2 on the last day. The code's denominator is
`len(dates) * 30`, 30 times the claimed one. -/
theorem C1_trend_counterexample :
    generate_dummy_data cexOracle 0 1 42 ⟨0, 0⟩ = [sampleRec]
    ∧ 4 / 5 + (2 / 5) * Int.fract (cexOracle.rat 0 32) = 1
    ∧ claimedTrend 1 29 = 6 / 5
    ∧ sampleRec.revenue
        ≠ roundTo2 ((sampleRec.units : ℚ) * (priceOf sampleRec.product : ℚ) * 1
            * claimedTrend 1 29) := by
  have hmult : 4 / 5 + (2 / 5) * Int.fract (cexOracle.rat 0 32) = 1 := by
    show 4 / 5 + (2 / 5) * Int.fract ((1 : ℚ) / 2) = 1
    rw [one_div, fract_half]
    norm_num
  have htrend : claimedTrend 1 29 = 6 / 5 := by
    rw [claimedTrend]
    norm_num
  refine ⟨concreteDataset, hmult, htrend, ?_⟩
  rw [htrend]
  have h18 : roundTo2 ((sampleRec.units : ℚ) * (priceOf sampleRec.product : ℚ) * 1 * (6 / 5))
      = 18 := by
    have hpr : priceOf sampleRec.product = 15 := by rfl
    rw [hpr, roundTo2]
    norm_num [sampleRec]
  rw [h18, sampleRec]
  norm_num

/-- C5: the weekly revenue series is empty exactly when no record matched
all filters, and in exactly that case the pipeline warns and skips all
chart generation and further aggregation (no charts payload), instead of
raising an error. -/
theorem C5_empty_result_signal (df : List Record) (startD endD : ℤ) (cat reg : String) :
    (weeklySeries (applyFilters df startD endD cat reg) = []
        ↔ applyFilters df startD endD cat reg = [])
    ∧ ((mainPipeline df startD endD cat reg).warned = true
        ↔ applyFilters df startD endD cat reg = [])
    ∧ ((mainPipeline df startD endD cat reg).charts = none
        ↔ applyFilters df startD endD cat reg = []) := by
  have hw := weeklySeries_eq_nil_iff (applyFilters df startD endD cat reg)
  refine ⟨hw, ?_, ?_⟩ <;>
    simp only [mainPipeline, List.isEmpty_iff] <;>
    by_cases h : weeklySeries (applyFilters df startD endD cat reg) = []
  · rw [if_pos h]
    exact iff_of_true rfl (hw.mp h)
  · rw [if_neg h]
    refine iff_of_false (by simp) fun hf => h (hw.mpr hf)
  · rw [if_pos h]
    exact iff_of_true rfl (hw.mp h)
  · rw [if_neg h]
    refine iff_of_false (by simp) fun hf => h (hw.mpr hf)

/-- Every entry of the product group-by is a distinct product of the
filtered set paired with its revenue sum. -/
lemma productSums_mem (f : List Record) (pv : String × ℚ) (h : pv ∈ productSums f) :
    pv.1 ∈ (f.map Record.product).dedup
    ∧ pv.2 = sumRevenueWhere f (fun r => r.product == pv.1) := by
  rw [productSums] at h
  obtain ⟨p, hp, hpv⟩ := List.mem_map.mp h
  rw [← hpv]
  exact ⟨(List.perm_insertionSort _ _).mem_iff.mp hp, rfl⟩

/-- Conversely, every distinct product of the filtered set contributes its
group entry to the product group-by. -/
lemma mem_productSums (f : List Record) (q : String) (hq : q ∈ (f.map Record.product).dedup) :
    (q, sumRevenueWhere f (fun r => r.product == q)) ∈ productSums f := by
  rw [productSums]
  exact List.mem_map.mpr ⟨q, (List.perm_insertionSort _ _).mem_iff.mpr hq, rfl⟩

/-- C6: `top_products` keeps at most 10 entries and exactly as many as
there are distinct products when fewer; it is sorted by descending summed
revenue; each entry pairs a distinct filtered product with its revenue sum;
and every distinct product left out has a sum no larger than any kept
entry's. -/
theorem C6_top_products (f : List Record) :
    (top_products f).length = min 10 (productSums f).length
    ∧ (productSums f).length = ((f.map Record.product).dedup).length
    ∧ List.Sorted revGe (top_products f)
    ∧ (∀ pv ∈ top_products f,
        pv.1 ∈ (f.map Record.product).dedup
        ∧ pv.2 = sumRevenueWhere f (fun r => r.product == pv.1))
    ∧ ∀ q ∈ (f.map Record.product).dedup,
        (∀ pv ∈ top_products f, pv.1 ≠ q) →
        ∀ pv ∈ top_products f,
          sumRevenueWhere f (fun r => r.product == q) ≤ pv.2 := by
  have hsorted : List.Sorted revGe (List.insertionSort revGe (productSums f)) :=
    List.sorted_insertionSort revGe (productSums f)
  have hperm : (List.insertionSort revGe (productSums f)).Perm (productSums f) :=
    List.perm_insertionSort revGe (productSums f)
  refine ⟨?_, ?_, ?_, ?_, ?_⟩
  · rw [top_products, List.length_take, hperm.length_eq]
  · rw [productSums, List.length_map, (List.perm_insertionSort _ _).length_eq]
  · exact List.Pairwise.sublist (List.take_sublist _ _) hsorted
  · intro pv hpv
    exact productSums_mem f pv (hperm.mem_iff.mp (List.mem_of_mem_take hpv))
  · intro q hq hne pv hpv
    have hqmem : (q, sumRevenueWhere f (fun r => r.product == q))
        ∈ List.insertionSort revGe (productSums f) :=
      hperm.mem_iff.mpr (mem_productSums f q hq)
    have hqdrop : (q, sumRevenueWhere f (fun r => r.product == q))
        ∈ (List.insertionSort revGe (productSums f)).drop 10 := by
      rw [← List.take_append_drop 10 (List.insertionSort revGe (productSums f))] at hqmem
      rcases List.mem_append.mp hqmem with h | h
      · exact absurd rfl (hne _ h)
      · exact h
    have hap : List.Sorted revGe ((List.insertionSort revGe (productSums f)).take 10
        ++ (List.insertionSort revGe (productSums f)).drop 10) := by
      rw [List.take_append_drop]
      exact hsorted
    exact (List.pairwise_append.mp hap).2.2 pv hpv _ hqdrop

/-- Concrete evaluation of the top-product list on the singleton filtered
set `[sampleRec]`. -/
lemma topProductsConcrete :
    top_products [sampleRec] = [("Classic Tee", (151 : ℚ) / 10)] := by
  simp [top_products, productSums, sumRevenueWhere, sampleRec, List.insertionSort,
        List.orderedInsert]

/-- Witness for C6 at the concrete singleton filtered set. -/
theorem C6_top_products_witness :
    ("Classic Tee", (151 : ℚ) / 10).1 ∈ ([sampleRec].map Record.product).dedup
    ∧ ("Classic Tee", (151 : ℚ) / 10).2
        = sumRevenueWhere [sampleRec]
            (fun r => r.product == ("Classic Tee", (151 : ℚ) / 10).1) :=
  (C6_top_products [sampleRec]).2.2.2.1 ("Classic Tee", 151 / 10)
    (by rw [topProductsConcrete]; exact List.mem_singleton_self _)
